import Mathlib

/-!
Verification of the resilient `v6.db.transport.rest` client
(`db_transport_api.py` of Better-Bahn): token-bucket rate limiter,
LRU cache with stale-while-revalidate, HTTP status classifier, and the
request orchestrator `_make_request_with_cache`.

Modelling conventions:
* Wall-clock times, durations and token counts (Python floats) are modelled
  as exact rationals (`ℚ`); counterexamples use values that are exactly
  representable as binary floats, so they carry over to the Python code.
* A whole request is treated as instantaneous: every `time.time()` call made
  while serving one request returns the same value `now`.
* Python exceptions that can escape a call (`KeyError`, `ValueError` from
  `min([])`, `ZeroDivisionError`) are modelled with `Except PyError`.
* Python dicts are modelled as association lists in insertion order with
  unique keys (`alistFind` / `alistSet` / `alistErase` mirror `d.get`,
  `d[k] = v`, `del d[k]`); `min(keys, key=...)` keeps the first minimum in
  iteration order, mirrored by `oldestKey`.
* Response payloads (`response.json()` results) are opaque `Payload` values.
* `error_message` strings of `APIResult` are not modelled (no claim
  concerns their contents).
* `key_data.encode()` is UTF-8; for the ASCII strings involved here the
  encoding is the identity on code points, which `strBytes` uses.
-/

set_option allowUnsafeReducibility true

deriving instance DecidableEq for Except

namespace BetterBahn

/-- Python exceptions that the modelled code can raise. -/
inductive PyError where
  | keyError
  | valueError
  | zeroDivisionError
deriving DecidableEq, Repr

/-! ### JSON values and `json.dumps(params, sort_keys=True)` -/

/-- JSON parameter values actually passed by the client: strings, integers
and booleans. -/
inductive JValue where
  | s (v : String)
  | i (n : Int)
  | b (v : Bool)
deriving DecidableEq, Repr

/-- Serialization of a parameter value exactly as `json.dumps` prints it
(strings quoted, integers in decimal, booleans lowercase). JSON string
escaping is omitted: the client's parameters contain no characters that
need escapes. -/
def jserialize : JValue → String
  | .s v => "\"" ++ v ++ "\""
  | .i n => toString n
  | .b true => "true"
  | .b false => "false"

/-- One `"key": value` item of a serialized JSON object
(`json.dumps` default separators are `", "` and `": "`). -/
def dumpsItem (p : String × JValue) : String :=
  "\"" ++ p.1 ++ "\": " ++ jserialize p.2

/-- Lexicographic `≤` on code-point lists: exactly how Python compares two
`str` values when sorting dict keys. -/
def lexLe : List Char → List Char → Bool
  | [], _ => true
  | _ :: _, [] => false
  | a :: as, b :: bs =>
      if a.toNat < b.toNat then true
      else if b.toNat < a.toNat then false
      else lexLe as bs

/-- The key order used by `sort_keys=True`, as a relation on items. -/
def keyLe (p q : String × JValue) : Prop := lexLe p.1.data q.1.data = true

instance keyLeDecidable : DecidableRel keyLe :=
  fun p q => inferInstanceAs (Decidable (_ = true))

/-- Model of `json.dumps(params, sort_keys=True)`: items sorted by key,
printed as a JSON object. (Python's sort is stable, but dict keys are
unique, so any sort by key produces the same list.) -/
def jsonDumpsSorted (params : List (String × JValue)) : String :=
  "\x7b" ++ String.intercalate (", ")
    ((List.insertionSort keyLe params).map dumpsItem) ++ "\x7d"

/-! ### MD5 (RFC 1321), used by `CacheManager._generate_key` -/

/-- Per-round left-rotation amounts of MD5. -/
def md5S : List Nat :=
  [7, 12, 17, 22, 7, 12, 17, 22, 7, 12, 17, 22, 7, 12, 17, 22,
   5, 9, 14, 20, 5, 9, 14, 20, 5, 9, 14, 20, 5, 9, 14, 20,
   4, 11, 16, 23, 4, 11, 16, 23, 4, 11, 16, 23, 4, 11, 16, 23,
   6, 10, 15, 21, 6, 10, 15, 21, 6, 10, 15, 21, 6, 10, 15, 21]

/-- MD5 round constants `K i = ⌊|sin (i+1)| · 2^32⌋`. -/
def md5K : List Nat :=
  [0xd76aa478, 0xe8c7b756, 0x242070db, 0xc1bdceee,
   0xf57c0faf, 0x4787c62a, 0xa8304613, 0xfd469501,
   0x698098d8, 0x8b44f7af, 0xffff5bb1, 0x895cd7be,
   0x6b901122, 0xfd987193, 0xa679438e, 0x49b40821,
   0xf61e2562, 0xc040b340, 0x265e5a51, 0xe9b6c7aa,
   0xd62f105d, 0x02441453, 0xd8a1e681, 0xe7d3fbc8,
   0x21e1cde6, 0xc33707d6, 0xf4d50d87, 0x455a14ed,
   0xa9e3e905, 0xfcefa3f8, 0x676f02d9, 0x8d2a4c8a,
   0xfffa3942, 0x8771f681, 0x6d9d6122, 0xfde5380c,
   0xa4beea44, 0x4bdecfa9, 0xf6bb4b60, 0xbebfbc70,
   0x289b7ec6, 0xeaa127fa, 0xd4ef3085, 0x04881d05,
   0xd9d4d039, 0xe6db99e5, 0x1fa27cf8, 0xc4ac5665,
   0xf4292244, 0x432aff97, 0xab9423a7, 0xfc93a039,
   0x655b59c3, 0x8f0ccc92, 0xffeff47d, 0x85845dd1,
   0x6fa87e4f, 0xfe2ce6e0, 0xa3014314, 0x4e0811a1,
   0xf7537e82, 0xbd3af235, 0x2ad7d2bb, 0xeb86d391]

/-- 32-bit left rotation. -/
def rotl32 (x n : Nat) : Nat :=
  ((x <<< n) ||| (x >>> (32 - n))) % 4294967296

/-- Bitwise complement on 32 bits. -/
def not32 (x : Nat) : Nat := x ^^^ 0xffffffff

/-- Group a byte list into 32-bit words, little-endian. -/
def toLEWords : List Nat → List Nat
  | b0 :: b1 :: b2 :: b3 :: rest =>
      (b0 + 256 * (b1 + 256 * (b2 + 256 * b3))) :: toLEWords rest
  | _ => []

/-- MD5 padding: `0x80`, zeros to 56 mod 64, then the bit length as a
64-bit little-endian integer. -/
def md5pad (msg : List Nat) : List Nat :=
  let ml := msg.length * 8
  let padLen := (55 - msg.length % 64 + 64) % 64 + 1
  msg ++ (0x80 :: List.replicate (padLen - 1) 0) ++
    (List.range 8).map (fun i => ml / 256 ^ i % 256)

/-- One MD5 round on state `(a, b, c, d)` with message words `m`. -/
def md5round (m : List Nat) (st : Nat × Nat × Nat × Nat) (i : Nat) :
    Nat × Nat × Nat × Nat :=
  let (a, b, c, d) := st
  let f :=
    if i < 16 then (b &&& c) ||| (not32 b &&& d)
    else if i < 32 then (d &&& b) ||| (not32 d &&& c)
    else if i < 48 then b ^^^ c ^^^ d
    else c ^^^ (b ||| not32 d)
  let g :=
    if i < 16 then i
    else if i < 32 then (5 * i + 1) % 16
    else if i < 48 then (3 * i + 5) % 16
    else 7 * i % 16
  let f' := (f + a + md5K.getD i 0 + m.getD g 0) % 4294967296
  (d, (b + rotl32 f' (md5S.getD i 0)) % 4294967296, b, c)

/-- Process one 512-bit chunk. -/
def md5chunk (st : Nat × Nat × Nat × Nat) (chunk : List Nat) :
    Nat × Nat × Nat × Nat :=
  let m := toLEWords chunk
  let (a0, b0, c0, d0) := st
  let (a, b, c, d) := (List.range 64).foldl (md5round m) (a0, b0, c0, d0)
  ((a0 + a) % 4294967296, (b0 + b) % 4294967296,
   (c0 + c) % 4294967296, (d0 + d) % 4294967296)

/-- MD5 of a byte list, as the four 32-bit state words. -/
def md5words (msg : List Nat) : Nat × Nat × Nat × Nat :=
  let padded := md5pad msg
  (List.range (padded.length / 64)).foldl
    (fun st i => md5chunk st ((padded.drop (64 * i)).take 64))
    (0x67452301, 0xefcdab89, 0x98badcfe, 0x10325476)

/-- Hex digit for `n < 16`. -/
def hexDigit (n : Nat) : Char :=
  if n < 10 then Char.ofNat (48 + n) else Char.ofNat (87 + n)

/-- Two lowercase hex digits of a byte. -/
def byteHex (b : Nat) : String :=
  String.mk [hexDigit (b / 16), hexDigit (b % 16)]

/-- A 32-bit word as eight hex digits, little-endian byte order. -/
def wordHexLE (w : Nat) : String :=
  byteHex (w % 256) ++ byteHex (w / 256 % 256) ++
    byteHex (w / 65536 % 256) ++ byteHex (w / 16777216 % 256)

/-- Model of `hashlib.md5(bytes).hexdigest()`. -/
def md5hex (msg : List Nat) : String :=
  let (a, b, c, d) := md5words msg
  wordHexLE a ++ wordHexLE b ++ wordHexLE c ++ wordHexLE d

/-- UTF-8 bytes of a string; identical to the code-point list for the ASCII
strings the claims use. -/
def strBytes (s : String) : List Nat := s.data.map Char.toNat

/-! ### Association lists mirroring Python dicts (insertion order) -/

/-- `d.get(k)` on a Python dict modelled as an association list. -/
def alistFind (k : String) : List (String × α) → Option α
  | [] => none
  | (k', v) :: rest => if k' = k then some v else alistFind k rest

/-- `d[k] = v`: replace in place when the key exists, else append. -/
def alistSet (k : String) (v : α) : List (String × α) → List (String × α)
  | [] => [(k, v)]
  | (k', v') :: rest =>
      if k' = k then (k, v) :: rest else (k', v') :: alistSet k v rest

/-- `del d[k]` for a key known to be present (unique keys). -/
def alistErase (k : String) : List (String × α) → List (String × α)
  | [] => []
  | (k', v') :: rest =>
      if k' = k then rest else (k', v') :: alistErase k rest

/-- `min(d.keys(), key=lambda k: d[k])`: the first key attaining the minimal
value, in iteration (= insertion) order; `none` for an empty dict, where
Python's `min` raises `ValueError`. -/
def oldestKey : List (String × ℚ) → Option String
  | [] => none
  | p :: rest =>
      some (rest.foldl (fun best q => if q.2 < best.2 then q else best) p).1

/-! ### Data model of `db_transport_api.py` -/

/-- Opaque JSON payload of a response (`response.json()` result). -/
abbrev Payload := String

/-- `APIResultType` enumeration. -/
inductive APIResultType where
  | SUCCESS
  | NOT_FOUND
  | RATE_LIMITED
  | UPSTREAM_ERROR
  | TRANSIENT_ERROR
  | PERMANENT_ERROR
deriving DecidableEq, Repr

/-- `APIResult` dataclass (the `error_message` string is not modelled). -/
structure APIResult where
  result_type : APIResultType
  data : Option Payload := none
  http_status : Option Nat := none
  retry_after : Option Int := none
  from_cache : Bool := false
  cached_at : Option ℚ := none
deriving DecidableEq, Repr

/-- `CacheEntry` dataclass. -/
structure CacheEntry where
  data : Payload
  fetched_at : ℚ
  etag : Option String := none
  max_age : ℚ := 300
  stale_while_revalidate : ℚ := 600
deriving DecidableEq, Repr

/-- `CacheEntry.is_fresh` at observation time `now`. -/
def CacheEntry.is_fresh (e : CacheEntry) (now : ℚ) : Bool :=
  now - e.fetched_at < e.max_age

/-- `CacheEntry.is_stale_but_usable` at observation time `now`. -/
def CacheEntry.is_stale_but_usable (e : CacheEntry) (now : ℚ) : Bool :=
  now - e.fetched_at < e.max_age + e.stale_while_revalidate

/-- `TokenBucket` state. -/
structure TokenBucket where
  capacity : ℚ
  tokens : ℚ
  refill_rate : ℚ
  last_update : ℚ
deriving DecidableEq, Repr

/-- `TokenBucket.consume(tokens)` at time `now`: lazy refill, then either
subtract and succeed or leave the refilled count and fail. Returns the
success flag together with the updated bucket. -/
def TokenBucket.consume (b : TokenBucket) (now : ℚ) (n : ℚ) : Bool × TokenBucket :=
  let tokens_to_add := (now - b.last_update) * b.refill_rate
  let tokens' := min b.capacity (b.tokens + tokens_to_add)
  if n ≤ tokens' then
    (true, { b with tokens := tokens' - n, last_update := now })
  else
    (false, { b with tokens := tokens', last_update := now })

/-- `TokenBucket.time_until_available(tokens)`. The Python code divides by
`refill_rate` without a guard; `refill_rate = 0` with too few tokens raises
`ZeroDivisionError`, modelled as `Except.error`. No refill happens here. -/
def TokenBucket.time_until_available (b : TokenBucket) (n : ℚ) : Except PyError ℚ :=
  if n ≤ b.tokens then .ok 0
  else if b.refill_rate = 0 then .error .zeroDivisionError
  else .ok ((n - b.tokens) / b.refill_rate)

/-- `CacheManager` state: the entry dict and the access-time dict. -/
structure CacheManager where
  max_size : Nat
  cache : List (String × CacheEntry) := []
  access_times : List (String × ℚ) := []
deriving DecidableEq, Repr

/-- `CacheManager._generate_key(endpoint, params)`: `endpoint` alone for
empty params, else `endpoint ? json.dumps(params, sort_keys=True)`, then
the MD5 hex digest. -/
def CacheManager.generate_key (endpoint : String)
    (params : List (String × JValue)) : String :=
  let key_data :=
    if params.isEmpty then endpoint
    else endpoint ++ "?" ++ jsonDumpsSorted params
  md5hex (strBytes key_data)

/-- `CacheManager.get(endpoint, params)` at time `now`: refreshes the key's
access time (even on a miss) and returns `(entry?, key)` with the updated
manager. -/
def CacheManager.get (cm : CacheManager) (endpoint : String)
    (params : List (String × JValue)) (now : ℚ) :
    Option CacheEntry × String × CacheManager :=
  let key := CacheManager.generate_key endpoint params
  (alistFind key cm.cache, key,
    { cm with access_times := alistSet key now cm.access_times })

/-- `CacheManager.set(key, entry)` at time `now`. When the cache is full and
the key is new, the code evicts `min(self._access_times, key=...)`; that
minimum can be a key that was only probed (never stored), in which case
`del self._cache[oldest_key]` raises `KeyError`; an empty access-time dict
makes `min` raise `ValueError`. -/
def CacheManager.set (cm : CacheManager) (key : String) (entry : CacheEntry)
    (now : ℚ) : Except PyError CacheManager :=
  if cm.max_size ≤ cm.cache.length ∧ alistFind key cm.cache = none then
    match oldestKey cm.access_times with
    | none => .error .valueError
    | some oldest =>
      match alistFind oldest cm.cache with
      | none => .error .keyError
      | some _ =>
        .ok { cm with
          cache := alistSet key entry (alistErase oldest cm.cache),
          access_times := alistSet key now (alistErase oldest cm.access_times) }
  else
    .ok { cm with
      cache := alistSet key entry cm.cache,
      access_times := alistSet key now cm.access_times }

/-- Client statistics dict. -/
structure Stats where
  requests_made : Nat := 0
  cache_hits : Nat := 0
  rate_limit_hits : Nat := 0
  errors : Nat := 0
deriving DecidableEq, Repr

/-- Mutable state of `DBTransportAPIClient` relevant to one request:
statistics, rate limiter and the optional cache (`enable_caching`). -/
structure ClientState where
  stats : Stats
  rate_limiter : TokenBucket
  cache_manager : Option CacheManager
deriving DecidableEq, Repr

/-- `_map_http_status_to_result_type`. -/
def map_http_status_to_result_type (status_code : Nat) : APIResultType :=
  if 200 ≤ status_code ∧ status_code < 300 then .SUCCESS
  else if status_code = 404 then .NOT_FOUND
  else if status_code = 429 then .RATE_LIMITED
  else if 400 ≤ status_code ∧ status_code < 500 then .PERMANENT_ERROR
  else if 500 ≤ status_code ∧ status_code < 600 then .UPSTREAM_ERROR
  else .TRANSIENT_ERROR

/-- Outcome of the single network GET of one request. `response` carries the
HTTP status, the result of attempting `response.json()` (`none` models a
`ValueError` from a malformed body), the `ETag` header, and the already
parsed result of `_extract_rate_limit_info` (retry-after seconds). -/
inductive NetworkOutcome where
  | timeout
  | connectionError
  | otherRequestException
  | response (status : Nat) (jsonBody : Option Payload)
      (etag : Option String) (retryAfterHeader : Option Int)
deriving DecidableEq, Repr

/-- The `Success(..., from_cache=True, cached_at=entry.fetched_at)` result
built from a cache entry. -/
def staleSuccess (e : CacheEntry) : APIResult :=
  { result_type := .SUCCESS, data := some e.data, from_cache := true,
                cached_at := some e.fetched_at }

/-- `self.stats['requests_made'] += 1`. -/
def bumpRequests (st : ClientState) : ClientState :=
  { st with stats := { st.stats with requests_made := st.stats.requests_made + 1 } }

/-- `self.stats['cache_hits'] += 1`. -/
def bumpCacheHits (st : ClientState) : ClientState :=
  { st with stats := { st.stats with cache_hits := st.stats.cache_hits + 1 } }

/-- `self.stats['rate_limit_hits'] += 1`. -/
def bumpRateLimitHits (st : ClientState) : ClientState :=
  { st with stats := { st.stats with rate_limit_hits := st.stats.rate_limit_hits + 1 } }

/-- `self.stats['errors'] += 1`. -/
def bumpErrors (st : ClientState) : ClientState :=
  { st with stats := { st.stats with errors := st.stats.errors + 1 } }

/-- The client state after steps 1 and 2 of a request: `requests_made`
bumped and the key's access time refreshed by the cache lookup. -/
def touchState (st : ClientState) (cm : CacheManager) (key : String) (now : ℚ) :
    ClientState :=
  { bumpRequests st with
    cache_manager := some { cm with access_times := alistSet key now cm.access_times } }

/-- `self.cache_manager.set(cache_key, entry)` guarded by
`if self.cache_manager and cache_key:`. -/
def setCache (st : ClientState) (key? : Option String) (entry : CacheEntry)
    (now : ℚ) : Except PyError ClientState :=
  match st.cache_manager, key? with
  | some cm, some key =>
      (cm.set key entry now).map fun cm' => { st with cache_manager := some cm' }
  | _, _ => .ok st

/-- Continuation of `_make_request_with_cache` after the cache lookup and
freshness check: rate limiting, the network call and response handling.
`st` already has `requests_made` incremented and the access-time touch
applied; `entry?`/`key?` are the cache lookup results (`none`/`none` when
caching is disabled). -/
def handleStatus (st : ClientState) (entry? : Option CacheEntry)
    (key? : Option String) (now : ℚ) (status : Nat)
    (jsonBody : Option Payload) (etag : Option String)
    (retryAfterHeader : Option Int) :
    Except PyError (APIResult × ClientState) := do
  let result_type := map_http_status_to_result_type status
  if result_type = .SUCCESS then
    match jsonBody with
    | some data =>
      let cache_entry : CacheEntry :=
        { data := data, fetched_at := now, etag := etag }
      let st ← setCache st key? cache_entry now
      return ({ result_type := .SUCCESS, data := some data,
                http_status := some status }, st)
    | none =>
      return ({ result_type := .TRANSIENT_ERROR, http_status := some status }, st)
  else
    let st := bumpErrors st
    let retry_after :=
      if result_type = .RATE_LIMITED then retryAfterHeader else none
    match entry? with
    | some e =>
      if e.is_stale_but_usable now ∧
          (result_type = .RATE_LIMITED ∨ result_type = .UPSTREAM_ERROR ∨
           result_type = .TRANSIENT_ERROR) then
        return (staleSuccess e, st)
      else
        return ({ result_type := result_type, http_status := some status,
                  retry_after := retry_after }, st)
    | none =>
      return ({ result_type := result_type, http_status := some status,
                retry_after := retry_after }, st)

/-- Continuation of `_make_request_with_cache` after the cache lookup and
freshness check: rate limiting, the network call and response handling.
`st` already has `requests_made` incremented and the access-time touch
applied; `entry?`/`key?` are the cache lookup results (`none`/`none` when
caching is disabled). `handleStatus` above covers classification of a
non-304 response (the `status_code == 304 and cache_entry` guard). -/
def afterCache (st : ClientState) (entry? : Option CacheEntry)
    (key? : Option String) (now : ℚ) (net : NetworkOutcome) :
    Except PyError (APIResult × ClientState) := do
  let (ok?, bucket') := st.rate_limiter.consume now 1
  let st := { st with rate_limiter := bucket' }
  if ok? = false then
    let st := bumpRateLimitHits st
    let wait ← bucket'.time_until_available 1
    match entry? with
    | some e =>
      if e.is_stale_but_usable now then
        return (staleSuccess e, bumpCacheHits st)
      else
        return ({ result_type := .RATE_LIMITED,
                  retry_after := some (Rat.floor wait + 1) }, st)
    | none =>
      return ({ result_type := .RATE_LIMITED,
                retry_after := some (Rat.floor wait + 1) }, st)
  else
    match net with
    | .timeout =>
      let st := bumpErrors st
      match entry? with
      | some e =>
        if e.is_stale_but_usable now then return (staleSuccess e, st)
        else return ({ result_type := .TRANSIENT_ERROR }, st)
      | none => return ({ result_type := .TRANSIENT_ERROR }, st)
    | .connectionError =>
      let st := bumpErrors st
      match entry? with
      | some e =>
        if e.is_stale_but_usable now then return (staleSuccess e, st)
        else return ({ result_type := .TRANSIENT_ERROR }, st)
      | none => return ({ result_type := .TRANSIENT_ERROR }, st)
    | .otherRequestException =>
      return ({ result_type := .TRANSIENT_ERROR }, bumpErrors st)
    | .response status jsonBody etag retryAfterHeader =>
      match entry? with
      | some e =>
        if status = 304 then
          let fresh_entry : CacheEntry :=
            { data := e.data, fetched_at := now, etag := e.etag }
          let st ← setCache st key? fresh_entry now
          return ({ result_type := .SUCCESS, data := some e.data,
                    from_cache := true,
                    cached_at := some fresh_entry.fetched_at }, st)
        else
          handleStatus st (some e) key? now status jsonBody etag retryAfterHeader
      | none =>
        handleStatus st none key? now status jsonBody etag retryAfterHeader

/-- `DBTransportAPIClient._make_request_with_cache(endpoint, params)` at time
`now`, with the network call's outcome `net` supplied by the environment
(unused when the request is answered before reaching the network). -/
def makeRequestWithCache (st : ClientState) (endpoint : String)
    (params : List (String × JValue)) (now : ℚ) (net : NetworkOutcome) :
    Except PyError (APIResult × ClientState) :=
  let st := bumpRequests st
  match st.cache_manager with
  | some cm =>
    match cm.get endpoint params now with
    | (entry?, key, cm') =>
      let st := { st with cache_manager := some cm' }
      match entry? with
      | some e =>
        if e.is_fresh now then
          .ok ({ result_type := .SUCCESS, data := some e.data,
                 from_cache := true, cached_at := some e.fetched_at },
               bumpCacheHits st)
        else
          afterCache st (some e) (some key) now net
      | none => afterCache st none (some key) now net
  | none => afterCache st none none now net

/-- The cache entry a request for `(endpoint, params)` would find, before
any mutation. -/
def entryOf (st : ClientState) (endpoint : String)
    (params : List (String × JValue)) : Option CacheEntry :=
  st.cache_manager.bind fun cm =>
    alistFind (CacheManager.generate_key endpoint params) cm.cache

/-- The result component of a request outcome. -/
def runResult (x : Except PyError (APIResult × ClientState)) : Option APIResult :=
  x.toOption.map Prod.fst

/-- The post-state component of a request outcome. -/
def runState (x : Except PyError (APIResult × ClientState)) : Option ClientState :=
  x.toOption.map Prod.snd

/-- The cached-entry dict of a client state (as a list). -/
def cacheListOf (st : ClientState) : Option (List (String × CacheEntry)) :=
  st.cache_manager.map CacheManager.cache

/-- Status classification table written from the spec's words, independently
of `_map_http_status_to_result_type`, for the refinement comparison:
200–299 → Success; 404 → NotFound; 429 → RateLimited; other 400–499 →
PermanentError; 500–599 → UpstreamError; anything else → TransientError. -/
def classifySpecTable (s : Nat) : APIResultType :=
  if 200 ≤ s ∧ s ≤ 299 then .SUCCESS
  else if s = 404 then .NOT_FOUND
  else if s = 429 then .RATE_LIMITED
  else if 400 ≤ s ∧ s ≤ 499 then .PERMANENT_ERROR
  else if 500 ≤ s ∧ s ≤ 599 then .UPSTREAM_ERROR
  else .TRANSIENT_ERROR

/-- View of the result fields the stale-window claims talk about:
`(result_type, from_cache, data)`. -/
def resultView (r : APIResult) : APIResultType × Bool × Option Payload :=
  (r.result_type, r.from_cache, r.data)

/-- A network attempt that fails with a fallback-eligible error, as the
claims list them: rate-limiter rejection, timeout or connection failure, or
a status classified RateLimited/UpstreamError/TransientError. -/
def fallbackEligible (st : ClientState) (now : ℚ) (net : NetworkOutcome) : Prop :=
  (st.rate_limiter.consume now 1).1 = false ∨
  ((st.rate_limiter.consume now 1).1 = true ∧
    match net with
    | .timeout => True
    | .connectionError => True
    | .otherRequestException => False
    | .response s _ _ _ =>
        map_http_status_to_result_type s = .RATE_LIMITED ∨
        map_http_status_to_result_type s = .UPSTREAM_ERROR ∨
        map_http_status_to_result_type s = .TRANSIENT_ERROR)

/-- The outcome is an HTTP 304 response. -/
def is304 : NetworkOutcome → Prop
  | .response s _ _ _ => s = 304
  | _ => False

/-- The "proper error" result kind of a failing attempt, by whether the
rate limiter admitted the call and by the network outcome: `RateLimited`
for a rejection, the classified kind for an HTTP status, and
`TransientError` for a transport exception. -/
def properErrorOf : Bool → NetworkOutcome → APIResultType
  | false, _ => .RATE_LIMITED
  | true, .response s _ _ _ => map_http_status_to_result_type s
  | true, _ => .TRANSIENT_ERROR

/-- The "proper error" result kind of a failing attempt in state `st`. -/
def properError (st : ClientState) (now : ℚ) (net : NetworkOutcome) : APIResultType :=
  properErrorOf (st.rate_limiter.consume now 1).1 net

/-! ### Concrete fixtures used by closed theorems -/

/-- A cache entry fetched at time 0 with default freshness windows
(`max_age = 300`, `stale_while_revalidate = 600`). -/
def entry0 : CacheEntry := { data := "d0", fetched_at := 0 }

/-- Like `entry0` but carrying a validator token. -/
def entryTagged : CacheEntry := { data := "d0", fetched_at := 0, etag := some "v1" }

/-- The cache key of endpoint `/x` with no parameters. -/
def key0 : String := CacheManager.generate_key ("/x") []

/-- A cache manager holding exactly `entry0` under `key0`. -/
def cmOne : CacheManager :=
  { max_size := 10, cache := [(key0, entry0)], access_times := [(key0, 0)] }

/-- A cache manager holding exactly `entryTagged` under `key0`. -/
def cmTagged : CacheManager :=
  { max_size := 10, cache := [(key0, entryTagged)], access_times := [(key0, 0)] }

/-- A full token bucket (10 tokens, refill 1/s). -/
def bucketFull : TokenBucket :=
  { capacity := 10, tokens := 10, refill_rate := 1, last_update := 0 }

/-- A depleted token bucket with refill rate 1/2 token per second, last
updated at t = 5 (both 0 and 1/2 are exact binary floats). -/
def bucketDepleted : TokenBucket :=
  { capacity := 10, tokens := 0, refill_rate := mkRat 1 2, last_update := 5 }

/-- Client with an empty cache and a full bucket. -/
def stPlain : ClientState :=
  { stats := {}, rate_limiter := bucketFull, cache_manager := some { max_size := 10 } }

/-- Client with an empty cache and the depleted bucket. -/
def stDepleted : ClientState :=
  { stats := {}, rate_limiter := bucketDepleted, cache_manager := some { max_size := 10 } }

/-- Client holding `entry0` under `key0`, full bucket. -/
def stOne : ClientState :=
  { stats := {}, rate_limiter := bucketFull, cache_manager := some cmOne }

/-- Client holding `entryTagged` under `key0`, full bucket. -/
def stTagged : ClientState :=
  { stats := {}, rate_limiter := bucketFull, cache_manager := some cmTagged }

end BetterBahn

/-!
## Theorems

Sanity checks of the MD5 embedding against RFC 1321 test vectors and the
digests the Python implementation produces, followed by one theorem per
claim. Sections re-enable definitional reduction of the `Rat` arithmetic
(sealed in Batteries) around proofs that evaluate concrete states.
-/

namespace BetterBahn

theorem md5_vector_abc :
    md5hex (strBytes ("abc")) = "900150983cd24fb0d6963f7d28e17f72" := by decide

theorem md5_vector_empty :
    md5hex (strBytes ("")) = "d41d8cd98f00b204e9800998ecf8427e" := by decide

theorem generate_key_slash_x :
    key0 = "cc8755609ad61864910f145119713de9" := by decide

@[simp] theorem touchState_rate_limiter (st : ClientState) (cm : CacheManager)
    (key : String) (now : ℚ) :
    (touchState st cm key now).rate_limiter = st.rate_limiter := rfl

@[simp] theorem touchState_cache_manager (st : ClientState) (cm : CacheManager)
    (key : String) (now : ℚ) :
    (touchState st cm key now).cache_manager = some
      { cm with access_times := alistSet key now cm.access_times } := rfl

@[simp] theorem bumpRequests_cache_manager (st : ClientState) :
    (bumpRequests st).cache_manager = st.cache_manager := rfl

@[simp] theorem bumpRequests_rate_limiter (st : ClientState) :
    (bumpRequests st).rate_limiter = st.rate_limiter := rfl

@[simp] theorem runResult_ok (p : APIResult × ClientState) :
    runResult (.ok p) = some p.1 := rfl

@[simp] theorem runState_ok (p : APIResult × ClientState) :
    runState (.ok p) = some p.2 := rfl

@[simp] theorem pure_eq_ok (x : APIResult × ClientState) :
    (pure x : Except PyError (APIResult × ClientState)) = .ok x := rfl

@[simp] theorem bind_ok {α β : Type} (x : α) (f : α → Except PyError β) :
    ((Except.ok x : Except PyError α) >>= f) = f x := rfl

theorem consume_false (b : TokenBucket) (now n : ℚ) (b' : TokenBucket)
    (h : b.consume now n = (false, b')) :
    ¬ n ≤ b'.tokens ∧ b'.refill_rate = b.refill_rate := by
  simp only [TokenBucket.consume] at h
  split_ifs at h with h1
  · simp at h
  · obtain ⟨-, h2⟩ := Prod.mk.injEq .. ▸ h
    subst h2
    exact ⟨h1, rfl⟩

theorem time_until_of_lt (b : TokenBucket) (hlt : ¬ (1:ℚ) ≤ b.tokens)
    (hr : b.refill_rate ≠ 0) :
    b.time_until_available 1 = .ok ((1 - b.tokens) / b.refill_rate) := by
  simp only [TokenBucket.time_until_available]
  rw [if_neg hlt, if_neg hr]

theorem makeRequest_cache_disabled (st : ClientState) (ep : String)
    (params : List (String × JValue)) (now : ℚ) (net : NetworkOutcome)
    (hcm : st.cache_manager = none) :
    makeRequestWithCache st ep params now net =
      afterCache (bumpRequests st) none none now net := by
  unfold makeRequestWithCache
  simp only [bumpRequests_cache_manager, hcm]

/-- Reduction of the orchestrator when the entry exists but is not fresh. -/
theorem makeRequest_entry_not_fresh (st : ClientState) (cm : CacheManager)
    (e : CacheEntry) (ep : String) (params : List (String × JValue)) (now : ℚ)
    (net : NetworkOutcome)
    (hcm : st.cache_manager = some cm)
    (he : alistFind (CacheManager.generate_key ep params) cm.cache = some e)
    (hf : e.is_fresh now = false) :
    makeRequestWithCache st ep params now net =
      afterCache (touchState st cm (CacheManager.generate_key ep params) now)
        (some e) (some (CacheManager.generate_key ep params)) now net := by
  unfold makeRequestWithCache touchState
  simp only [bumpRequests_cache_manager, hcm, CacheManager.get, he, hf,
    Bool.false_eq_true, if_false]

/-- Reduction of the orchestrator on a cache miss. -/
theorem makeRequest_entry_none (st : ClientState) (cm : CacheManager)
    (ep : String) (params : List (String × JValue)) (now : ℚ)
    (net : NetworkOutcome)
    (hcm : st.cache_manager = some cm)
    (he : alistFind (CacheManager.generate_key ep params) cm.cache = none) :
    makeRequestWithCache st ep params now net =
      afterCache (touchState st cm (CacheManager.generate_key ep params) now)
        none (some (CacheManager.generate_key ep params)) now net := by
  unfold makeRequestWithCache touchState
  simp only [bumpRequests_cache_manager, hcm, CacheManager.get, he]

/-- Rate-limiter rejection with no usable-stale entry: `RateLimited` with
`retry_after = floor(wait) + 1`. -/
theorem afterCache_rl_noStale (st : ClientState) (entry? : Option CacheEntry)
    (key? : Option String) (now : ℚ) (net : NetworkOutcome) (b' : TokenBucket)
    (hcon : st.rate_limiter.consume now 1 = (false, b'))
    (hr : b'.refill_rate ≠ 0)
    (hstale : ∀ e, entry? = some e → e.is_stale_but_usable now = false) :
    afterCache st entry? key? now net =
      .ok ({ result_type := .RATE_LIMITED,
             retry_after := some (Rat.floor ((1 - b'.tokens) / b'.refill_rate) + 1) },
           bumpRateLimitHits { st with rate_limiter := b' }) := by
  have hlt := (consume_false _ _ _ _ hcon).1
  unfold afterCache
  rw [hcon]
  simp only [time_until_of_lt b' hlt hr]
  cases entry? with
  | none => simp
  | some e => simp [hstale e rfl]

/-- Rate-limiter rejection with a usable-stale entry: stale `Success`. -/
theorem afterCache_rl_stale (st : ClientState) (e : CacheEntry)
    (key? : Option String) (now : ℚ) (net : NetworkOutcome) (b' : TokenBucket)
    (hcon : st.rate_limiter.consume now 1 = (false, b'))
    (hr : b'.refill_rate ≠ 0)
    (hu : e.is_stale_but_usable now = true) :
    afterCache st (some e) key? now net =
      .ok (staleSuccess e,
           bumpCacheHits (bumpRateLimitHits { st with rate_limiter := b' })) := by
  have hlt := (consume_false _ _ _ _ hcon).1
  unfold afterCache
  rw [hcon]
  simp only [time_until_of_lt b' hlt hr]
  simp [hu]

/-- Timeout with a usable-stale entry: stale `Success`, `errors` bumped. -/
theorem afterCache_timeout_stale (st : ClientState) (e : CacheEntry)
    (key? : Option String) (now : ℚ) (b' : TokenBucket)
    (hcon : st.rate_limiter.consume now 1 = (true, b'))
    (hu : e.is_stale_but_usable now = true) :
    afterCache st (some e) key? now .timeout =
      .ok (staleSuccess e, bumpErrors { st with rate_limiter := b' }) := by
  unfold afterCache
  rw [hcon]
  simp [hu]

/-- Timeout without a usable-stale entry: `TransientError`. -/
theorem afterCache_timeout_noStale (st : ClientState) (entry? : Option CacheEntry)
    (key? : Option String) (now : ℚ) (b' : TokenBucket)
    (hcon : st.rate_limiter.consume now 1 = (true, b'))
    (hstale : ∀ e, entry? = some e → e.is_stale_but_usable now = false) :
    afterCache st entry? key? now .timeout =
      .ok ({ result_type := .TRANSIENT_ERROR },
           bumpErrors { st with rate_limiter := b' }) := by
  unfold afterCache
  rw [hcon]
  cases entry? with
  | none => simp
  | some e => simp [hstale e rfl]

/-- Connection error with a usable-stale entry: stale `Success`. -/
theorem afterCache_conn_stale (st : ClientState) (e : CacheEntry)
    (key? : Option String) (now : ℚ) (b' : TokenBucket)
    (hcon : st.rate_limiter.consume now 1 = (true, b'))
    (hu : e.is_stale_but_usable now = true) :
    afterCache st (some e) key? now .connectionError =
      .ok (staleSuccess e, bumpErrors { st with rate_limiter := b' }) := by
  unfold afterCache
  rw [hcon]
  simp [hu]

/-- Connection error without a usable-stale entry: `TransientError`. -/
theorem afterCache_conn_noStale (st : ClientState) (entry? : Option CacheEntry)
    (key? : Option String) (now : ℚ) (b' : TokenBucket)
    (hcon : st.rate_limiter.consume now 1 = (true, b'))
    (hstale : ∀ e, entry? = some e → e.is_stale_but_usable now = false) :
    afterCache st entry? key? now .connectionError =
      .ok ({ result_type := .TRANSIENT_ERROR },
           bumpErrors { st with rate_limiter := b' }) := by
  unfold afterCache
  rw [hcon]
  cases entry? with
  | none => simp
  | some e => simp [hstale e rfl]

/-- Any other `requests.RequestException`: `TransientError`, no cache
consultation, whatever the entry. -/
theorem afterCache_otherExc (st : ClientState) (entry? : Option CacheEntry)
    (key? : Option String) (now : ℚ) (b' : TokenBucket)
    (hcon : st.rate_limiter.consume now 1 = (true, b')) :
    afterCache st entry? key? now .otherRequestException =
      .ok ({ result_type := .TRANSIENT_ERROR },
           bumpErrors { st with rate_limiter := b' }) := by
  unfold afterCache
  rw [hcon]
  cases entry? <;> simp

/-- HTTP 304 with an entry present (the key is cached in the state's
manager, so the store cannot evict): revalidated old payload. -/
theorem afterCache_304 (st : ClientState) (e e₀ : CacheEntry) (k : String)
    (now : ℚ) (b' : TokenBucket) (cmt : CacheManager)
    (jsonBody : Option Payload) (etag : Option String) (ra : Option Int)
    (hcon : st.rate_limiter.consume now 1 = (true, b'))
    (hcm : st.cache_manager = some cmt)
    (hfound : alistFind k cmt.cache = some e₀) :
    runResult (afterCache st (some e) (some k) now (.response 304 jsonBody etag ra)) =
      some { result_type := .SUCCESS, data := some e.data,
             from_cache := true, cached_at := some now } := by
  unfold afterCache
  rw [hcon]
  simp [setCache, hcm, CacheManager.set, hfound, Except.map, runResult,
    Except.toOption]

/-- A non-304 response with an entry present dispatches to `handleStatus`. -/
theorem afterCache_response_entry (st : ClientState) (e : CacheEntry)
    (key? : Option String) (now : ℚ) (b' : TokenBucket) (s : Nat)
    (jsonBody : Option Payload) (etag : Option String) (ra : Option Int)
    (hcon : st.rate_limiter.consume now 1 = (true, b'))
    (hs : s ≠ 304) :
    afterCache st (some e) key? now (.response s jsonBody etag ra) =
      handleStatus { st with rate_limiter := b' } (some e) key? now s jsonBody etag ra := by
  unfold afterCache
  rw [hcon]
  simp [hs]

/-- A response with no entry present dispatches to `handleStatus` (the 304
branch requires `cache_entry`). -/
theorem afterCache_response_none (st : ClientState)
    (key? : Option String) (now : ℚ) (b' : TokenBucket) (s : Nat)
    (jsonBody : Option Payload) (etag : Option String) (ra : Option Int)
    (hcon : st.rate_limiter.consume now 1 = (true, b')) :
    afterCache st none key? now (.response s jsonBody etag ra) =
      handleStatus { st with rate_limiter := b' } none key? now s jsonBody etag ra := by
  unfold afterCache
  rw [hcon]
  simp

/-- A 2xx body that fails JSON parsing: `TransientError`, state untouched
(in particular `errors` is not incremented and nothing is stored). -/
theorem handleStatus_badJson (st : ClientState) (entry? : Option CacheEntry)
    (key? : Option String) (now : ℚ) (s : Nat)
    (etag : Option String) (ra : Option Int)
    (h2xx : 200 ≤ s ∧ s < 300) :
    handleStatus st entry? key? now s none etag ra =
      .ok ({ result_type := .TRANSIENT_ERROR, http_status := some s }, st) := by
  have hrt : map_http_status_to_result_type s = .SUCCESS := by
    simp [map_http_status_to_result_type, h2xx]
  unfold handleStatus
  simp [hrt]

/-- An error status classified RateLimited/UpstreamError/TransientError with
a usable-stale entry: stale `Success` (after bumping `errors`). -/
theorem handleStatus_err_stale (st : ClientState) (e : CacheEntry)
    (key? : Option String) (now : ℚ) (s : Nat) (jsonBody : Option Payload)
    (etag : Option String) (ra : Option Int)
    (hrt : map_http_status_to_result_type s = .RATE_LIMITED ∨
           map_http_status_to_result_type s = .UPSTREAM_ERROR ∨
           map_http_status_to_result_type s = .TRANSIENT_ERROR)
    (hu : e.is_stale_but_usable now = true) :
    handleStatus st (some e) key? now s jsonBody etag ra =
      .ok (staleSuccess e, bumpErrors st) := by
  have hne : map_http_status_to_result_type s ≠ .SUCCESS := by
    rcases hrt with h | h | h <;> simp [h]
  unfold handleStatus
  simp only [if_neg hne]
  simp [hu, hrt]

/-- An error status without a usable-stale entry: the classified error
result, carrying the status and (for RateLimited) the retry-after hint. -/
theorem handleStatus_err_noStale (st : ClientState) (entry? : Option CacheEntry)
    (key? : Option String) (now : ℚ) (s : Nat) (jsonBody : Option Payload)
    (etag : Option String) (ra : Option Int)
    (hne : map_http_status_to_result_type s ≠ .SUCCESS)
    (hstale : ∀ e, entry? = some e → e.is_stale_but_usable now = false) :
    handleStatus st entry? key? now s jsonBody etag ra =
      .ok ({ result_type := map_http_status_to_result_type s,
             http_status := some s,
             retry_after :=
               if map_http_status_to_result_type s = .RATE_LIMITED then ra else none },
           bumpErrors st) := by
  unfold handleStatus
  simp only [if_neg hne]
  cases entry? with
  | none => simp
  | some e => simp [hstale e rfl]

/-- C7: a fresh cache hit returns the cached payload with
`from_cache = true` and `cached_at = fetched_at`, bumps `cache_hits`, and
does so for every possible network outcome with a right-hand state that
does not mention the outcome (no network call) and whose rate limiter is
exactly the caller's (no rate-limiter interaction). -/
theorem C7_fresh_cache_hit (st : ClientState) (cm : CacheManager)
    (e : CacheEntry) (ep : String) (params : List (String × JValue))
    (now : ℚ) (net : NetworkOutcome)
    (hcm : st.cache_manager = some cm)
    (he : alistFind (CacheManager.generate_key ep params) cm.cache = some e)
    (hf : e.is_fresh now = true) :
    makeRequestWithCache st ep params now net =
      .ok ({ result_type := .SUCCESS, data := some e.data,
             from_cache := true, cached_at := some e.fetched_at },
           bumpCacheHits (touchState st cm (CacheManager.generate_key ep params) now)) ∧
    Option.map ClientState.rate_limiter
      (runState (makeRequestWithCache st ep params now net)) =
      some st.rate_limiter ∧
    Option.map Stats.cache_hits (Option.map ClientState.stats
      (runState (makeRequestWithCache st ep params now net))) =
      some (st.stats.cache_hits + 1) := by
  have heq : makeRequestWithCache st ep params now net =
      .ok ({ result_type := .SUCCESS, data := some e.data,
             from_cache := true, cached_at := some e.fetched_at },
           bumpCacheHits (touchState st cm (CacheManager.generate_key ep params) now)) := by
    unfold makeRequestWithCache touchState
    simp only [bumpRequests_cache_manager, hcm, CacheManager.get, he, hf, if_true]
  refine ⟨heq, ?_, ?_⟩ <;> rw [heq] <;> rfl

/-- C10: a `requests.RequestException` that is neither `Timeout` nor
`ConnectionError` bumps `errors` and returns `TransientError` without
consulting the cache: the stored entries are untouched and no stale
fallback happens whatever the entry's age (the witness exercises a
usable-stale entry and still observes `TransientError`). -/
theorem C10_other_exception (st : ClientState) (cm : CacheManager)
    (ep : String) (params : List (String × JValue)) (now : ℚ) (b' : TokenBucket)
    (hcm : st.cache_manager = some cm)
    (hfresh : ∀ e, alistFind (CacheManager.generate_key ep params) cm.cache = some e →
      e.is_fresh now = false)
    (hcon : st.rate_limiter.consume now 1 = (true, b')) :
    makeRequestWithCache st ep params now .otherRequestException =
      .ok ({ result_type := .TRANSIENT_ERROR },
           bumpErrors { touchState st cm (CacheManager.generate_key ep params) now with
             rate_limiter := b' }) ∧
    Option.map Stats.errors (Option.map ClientState.stats
      (runState (makeRequestWithCache st ep params now .otherRequestException))) =
      some (st.stats.errors + 1) ∧
    Option.map cacheListOf
      (runState (makeRequestWithCache st ep params now .otherRequestException)) =
      some (cacheListOf st) := by
  have hcon2 : (touchState st cm (CacheManager.generate_key ep params) now).rate_limiter.consume
      now 1 = (true, b') := by rw [touchState_rate_limiter]; exact hcon
  have heq : makeRequestWithCache st ep params now .otherRequestException =
      .ok ({ result_type := .TRANSIENT_ERROR },
           bumpErrors { touchState st cm (CacheManager.generate_key ep params) now with
             rate_limiter := b' }) := by
    rcases hee : alistFind (CacheManager.generate_key ep params) cm.cache with _ | e
    · rw [makeRequest_entry_none st cm ep params now _ hcm hee,
        afterCache_otherExc _ none _ now b' hcon2]
    · rw [makeRequest_entry_not_fresh st cm e ep params now _ hcm hee (hfresh e hee),
        afterCache_otherExc _ (some e) _ now b' hcon2]
  refine ⟨heq, ?_, ?_⟩ <;> rw [heq] <;>
    simp [bumpErrors, touchState, bumpRequests, cacheListOf, hcm]

/-- C2 (amended): a 2xx response whose body fails JSON parsing yields a
`TransientError` carrying the status and stores nothing (the entry dict is
unchanged) — but, diverging from the claim, the `errors` counter is left
unchanged (the `except ValueError` branch returns before any increment). -/
theorem C2_badJson_transient (st : ClientState) (cm : CacheManager)
    (ep : String) (params : List (String × JValue)) (now : ℚ) (s : Nat)
    (etag : Option String) (ra : Option Int) (b' : TokenBucket)
    (hcm : st.cache_manager = some cm)
    (hfresh : ∀ e, alistFind (CacheManager.generate_key ep params) cm.cache = some e →
      e.is_fresh now = false)
    (hcon : st.rate_limiter.consume now 1 = (true, b'))
    (h2xx : 200 ≤ s ∧ s < 300) :
    makeRequestWithCache st ep params now (.response s none etag ra) =
      .ok ({ result_type := .TRANSIENT_ERROR, http_status := some s },
           { touchState st cm (CacheManager.generate_key ep params) now with
             rate_limiter := b' }) ∧
    Option.map Stats.errors (Option.map ClientState.stats
      (runState (makeRequestWithCache st ep params now (.response s none etag ra)))) =
      some st.stats.errors ∧
    Option.map cacheListOf
      (runState (makeRequestWithCache st ep params now (.response s none etag ra))) =
      some (cacheListOf st) := by
  have hs : s ≠ 304 := by omega
  have hcon2 : (touchState st cm (CacheManager.generate_key ep params) now).rate_limiter.consume
      now 1 = (true, b') := by rw [touchState_rate_limiter]; exact hcon
  have heq : makeRequestWithCache st ep params now (.response s none etag ra) =
      .ok ({ result_type := .TRANSIENT_ERROR, http_status := some s },
           { touchState st cm (CacheManager.generate_key ep params) now with
             rate_limiter := b' }) := by
    rcases hee : alistFind (CacheManager.generate_key ep params) cm.cache with _ | e
    · rw [makeRequest_entry_none st cm ep params now _ hcm hee,
        afterCache_response_none _ _ now b' s none etag ra hcon2,
        handleStatus_badJson _ none _ now s etag ra h2xx]
    · rw [makeRequest_entry_not_fresh st cm e ep params now _ hcm hee (hfresh e hee),
        afterCache_response_entry _ e _ now b' s none etag ra hcon2 hs,
        handleStatus_badJson _ (some e) _ now s etag ra h2xx]
  refine ⟨heq, ?_, ?_⟩ <;> rw [heq] <;>
    simp [touchState, bumpRequests, cacheListOf, hcm]

/-- C1 (amended): on a rate-limiter rejection with no fresh and no
usable-stale entry the orchestrator bumps `rate_limit_hits` and returns
`RateLimited` whose `retry_after` is `floor(time_until_available(1)) + 1`
(Python's `int(wait) + 1`) — the ceiling only when the wait is not a whole
number — computed on the refilled bucket left behind by the failed
`consume`. -/
theorem C1_rate_limited_retry (st : ClientState) (cm : CacheManager)
    (ep : String) (params : List (String × JValue)) (now : ℚ)
    (net : NetworkOutcome) (b' : TokenBucket)
    (hcm : st.cache_manager = some cm)
    (hfresh : ∀ e, alistFind (CacheManager.generate_key ep params) cm.cache = some e →
      e.is_fresh now = false)
    (hstale : ∀ e, alistFind (CacheManager.generate_key ep params) cm.cache = some e →
      e.is_stale_but_usable now = false)
    (hcon : st.rate_limiter.consume now 1 = (false, b'))
    (hr : b'.refill_rate ≠ 0) :
    makeRequestWithCache st ep params now net =
      .ok ({ result_type := .RATE_LIMITED,
             retry_after := some (Rat.floor ((1 - b'.tokens) / b'.refill_rate) + 1) },
           bumpRateLimitHits { touchState st cm (CacheManager.generate_key ep params) now with
             rate_limiter := b' }) ∧
    b'.time_until_available 1 = .ok ((1 - b'.tokens) / b'.refill_rate) ∧
    Option.map Stats.rate_limit_hits (Option.map ClientState.stats
      (runState (makeRequestWithCache st ep params now net))) =
      some (st.stats.rate_limit_hits + 1) := by
  have hlt := (consume_false _ _ _ _ hcon).1
  have hcon2 : (touchState st cm (CacheManager.generate_key ep params) now).rate_limiter.consume
      now 1 = (false, b') := by rw [touchState_rate_limiter]; exact hcon
  have heq : makeRequestWithCache st ep params now net =
      .ok ({ result_type := .RATE_LIMITED,
             retry_after := some (Rat.floor ((1 - b'.tokens) / b'.refill_rate) + 1) },
           bumpRateLimitHits { touchState st cm (CacheManager.generate_key ep params) now with
             rate_limiter := b' }) := by
    rcases hee : alistFind (CacheManager.generate_key ep params) cm.cache with _ | e
    · rw [makeRequest_entry_none st cm ep params now _ hcm hee,
        afterCache_rl_noStale _ none _ now net b' hcon2 hr (fun e h => by cases h)]
    · rw [makeRequest_entry_not_fresh st cm e ep params now _ hcm hee (hfresh e hee),
        afterCache_rl_noStale _ (some e) _ now net b' hcon2 hr
          (fun e' h => by cases h; exact hstale e hee)]
  refine ⟨heq, time_until_of_lt b' hlt hr, ?_⟩
  rw [heq]
  rfl

set_option maxHeartbeats 800000 in
/-- C6 (amended): with a cached entry whose age lies in
`[max_age, max_age + stale_while_revalidate)`, every fallback-eligible
failure (rate-limiter rejection — assuming a positive refill rate so the
wait computation itself does not crash — timeout, connection failure, or a
status classified RateLimited/UpstreamError/TransientError) yields
`Success(from_cache = true)` carrying the old payload. Beyond the window
(`age ≥ max_age + stale_while_revalidate`, nonnegative window) the old
payload is never served and the proper error result is returned instead —
except for HTTP 304 with an entry present, which returns the revalidated
old payload regardless of age (hence the `¬ is304` hypothesis, forced by
the counterexample). -/
theorem C6_stale_window (st : ClientState) (cm : CacheManager) (e : CacheEntry)
    (ep : String) (params : List (String × JValue)) (now : ℚ)
    (net : NetworkOutcome)
    (hcm : st.cache_manager = some cm)
    (he : alistFind (CacheManager.generate_key ep params) cm.cache = some e)
    (hr : st.rate_limiter.refill_rate ≠ 0) :
    ((e.max_age ≤ now - e.fetched_at ∧
      now - e.fetched_at < e.max_age + e.stale_while_revalidate) →
      fallbackEligible st now net →
      Option.map resultView (runResult (makeRequestWithCache st ep params now net)) =
        some (.SUCCESS, true, some e.data)) ∧
    (0 ≤ e.stale_while_revalidate →
      e.max_age + e.stale_while_revalidate ≤ now - e.fetched_at →
      fallbackEligible st now net → ¬ is304 net →
      Option.map resultView (runResult (makeRequestWithCache st ep params now net)) =
        some (properError st now net, false, none)) := by
  constructor
  · rintro ⟨hage1, hage2⟩ helig
    have hf : e.is_fresh now = false := by
      simp only [CacheEntry.is_fresh, decide_eq_false_iff_not, not_lt]
      linarith
    have hu : e.is_stale_but_usable now = true := by
      simp only [CacheEntry.is_stale_but_usable, decide_eq_true_eq]
      linarith
    rw [makeRequest_entry_not_fresh st cm e ep params now net hcm he hf]
    rcases hcon : st.rate_limiter.consume now 1 with ⟨ok, b'⟩
    have hcon2 : (touchState st cm (CacheManager.generate_key ep params) now).rate_limiter.consume
        now 1 = (ok, b') := by rw [touchState_rate_limiter]; exact hcon
    cases ok with
    | false =>
      have hr' : b'.refill_rate ≠ 0 := by
        rw [(consume_false _ _ _ _ hcon).2]; exact hr
      rw [afterCache_rl_stale _ e _ now net b' hcon2 hr' hu]
      simp [staleSuccess, resultView]
    | true =>
      rcases helig with hfail | ⟨-, hnet⟩
      · rw [hcon] at hfail; simp at hfail
      · cases net with
        | timeout =>
          rw [afterCache_timeout_stale _ e _ now b' hcon2 hu]
          simp [staleSuccess, resultView]
        | connectionError =>
          rw [afterCache_conn_stale _ e _ now b' hcon2 hu]
          simp [staleSuccess, resultView]
        | otherRequestException => exact hnet.elim
        | response s body etag ra =>
          by_cases h304 : s = 304
          · subst h304
            rw [afterCache_304
              (touchState st cm (CacheManager.generate_key ep params) now) e e
              (CacheManager.generate_key ep params) now b'
              { cm with access_times :=
                  alistSet (CacheManager.generate_key ep params) now cm.access_times }
              body etag ra hcon2 (touchState_cache_manager st cm _ now) he]
            simp [resultView]
          · rw [afterCache_response_entry _ e _ now b' s body etag ra hcon2 h304,
              handleStatus_err_stale _ e _ now s body etag ra hnet hu]
            simp [staleSuccess, resultView]
  · intro hsw hage helig h304
    have hf : e.is_fresh now = false := by
      simp only [CacheEntry.is_fresh, decide_eq_false_iff_not, not_lt]
      linarith
    have hu : e.is_stale_but_usable now = false := by
      simp only [CacheEntry.is_stale_but_usable, decide_eq_false_iff_not, not_lt]
      linarith
    rw [makeRequest_entry_not_fresh st cm e ep params now net hcm he hf]
    rcases hcon : st.rate_limiter.consume now 1 with ⟨ok, b'⟩
    have hcon2 : (touchState st cm (CacheManager.generate_key ep params) now).rate_limiter.consume
        now 1 = (ok, b') := by rw [touchState_rate_limiter]; exact hcon
    cases ok with
    | false =>
      have hr' : b'.refill_rate ≠ 0 := by
        rw [(consume_false _ _ _ _ hcon).2]; exact hr
      simp only [properError, hcon, properErrorOf]
      rw [afterCache_rl_noStale _ (some e) _ now net b' hcon2 hr'
        (fun e' h => by cases h; exact hu)]
      simp [resultView]
    | true =>
      rcases helig with hfail | ⟨-, hnet⟩
      · rw [hcon] at hfail; simp at hfail
      · simp only [properError, hcon, properErrorOf]
        cases net with
        | timeout =>
          rw [afterCache_timeout_noStale _ (some e) _ now b' hcon2
            (fun e' h => by cases h; exact hu)]
          simp [resultView]
        | connectionError =>
          rw [afterCache_conn_noStale _ (some e) _ now b' hcon2
            (fun e' h => by cases h; exact hu)]
          simp [resultView]
        | otherRequestException => exact hnet.elim
        | response s body etag ra =>
          have hs : s ≠ 304 := h304
          have hne : map_http_status_to_result_type s ≠ .SUCCESS := by
            rcases hnet with h | h | h <;> simp [h]
          rw [afterCache_response_entry _ e _ now b' s body etag ra hcon2 hs,
            handleStatus_err_noStale _ (some e) _ now s body etag ra hne
              (fun e' h => by cases h; exact hu)]
          simp [resultView]

/-- C8: the status classifier maps every HTTP status exactly per the spec's
table (200–299 Success, 404 NotFound, 429 RateLimited, other 4xx
PermanentError, 5xx UpstreamError, everything else TransientError), and a
request whose network call raises with no status at all (timeout,
connection failure, other request exception) produces a `TransientError`
result (shown with caching disabled, where no fallback can mask it). -/
theorem C8_classifier_table :
    (∀ s : Nat, map_http_status_to_result_type s = classifySpecTable s) ∧
    (∀ (st : ClientState) (ep : String) (params : List (String × JValue))
      (now : ℚ) (net : NetworkOutcome),
      st.cache_manager = none →
      (st.rate_limiter.consume now 1).1 = true →
      (net = .timeout ∨ net = .connectionError ∨ net = .otherRequestException) →
      Option.map APIResult.result_type
        (runResult (makeRequestWithCache st ep params now net)) =
        some .TRANSIENT_ERROR) := by
  constructor
  · intro s
    simp only [map_http_status_to_result_type, classifySpecTable]
    split_ifs <;> first | rfl | omega
  · intro st ep params now net hcm hc hnet
    rcases hcon : st.rate_limiter.consume now 1 with ⟨ok, b'⟩
    rw [hcon] at hc
    simp only at hc
    subst hc
    have hcon2 : (bumpRequests st).rate_limiter.consume now 1 = (true, b') := by
      rw [bumpRequests_rate_limiter]; exact hcon
    rw [makeRequest_cache_disabled st ep params now net hcm]
    rcases hnet with h | h | h <;> subst h
    · rw [afterCache_timeout_noStale _ none _ now b' hcon2 (fun e h => by cases h)]
      rfl
    · rw [afterCache_conn_noStale _ none _ now b' hcon2 (fun e h => by cases h)]
      rfl
    · rw [afterCache_otherExc _ none _ now b' hcon2]
      rfl

/-- C4 (amended): `time_until_available` is total whenever `refill_rate ≠ 0`,
returning 0 if the tokens are already available and `(n − tokens) /
refill_rate` otherwise; but when `refill_rate = 0` and the tokens are not
available it raises `ZeroDivisionError` (the division is unguarded), rather
than returning an "infinite" duration. -/
theorem C4_time_until_available (b : TokenBucket) (n : ℚ) :
    (b.refill_rate ≠ 0 →
      b.time_until_available n =
        .ok (if n ≤ b.tokens then 0 else (n - b.tokens) / b.refill_rate)) ∧
    (b.refill_rate = 0 → ¬ n ≤ b.tokens →
      b.time_until_available n = .error .zeroDivisionError) := by
  constructor
  · intro hr
    simp only [TokenBucket.time_until_available]
    split_ifs <;> simp_all
  · intro hr hn
    simp only [TokenBucket.time_until_available]
    rw [if_neg hn, if_pos hr]

/-- C5 (amended): a read never discards an aged-out entry. `get` leaves the
entry dict unchanged (it only touches access times), and an entry aged past
`max_age + stale_while_revalidate` is merely unusable
(`is_stale_but_usable = false`), remaining in the store until capacity
eviction or `clear()`. -/
theorem C5_get_never_discards (cm : CacheManager) (ep : String)
    (params : List (String × JValue)) (now : ℚ) :
    ((cm.get ep params now).2.2).cache = cm.cache ∧
    (∀ e : CacheEntry, e.max_age + e.stale_while_revalidate ≤ now - e.fetched_at →
      e.is_stale_but_usable now = false) := by
  refine ⟨rfl, fun e h => ?_⟩
  simp only [CacheEntry.is_stale_but_usable, decide_eq_false_iff_not, not_lt]
  linarith

section ConcreteEvaluations

attribute [local semireducible] Rat.mul Rat.add Rat.sub Rat.div Rat.inv Rat.neg

/-- C4 counterexample: with `refill_rate = 0` and no token available, the
code raises `ZeroDivisionError` — the error branch is reachable, refuting
"an infinite duration, not a crash". -/
theorem C4_counterexample :
    TokenBucket.time_until_available
      { capacity := 10, tokens := 0, refill_rate := 0, last_update := 0 } 1 =
      .error .zeroDivisionError := by decide

/-- C4 witness: the amended theorem applied at concrete buckets. -/
theorem C4_witness :
    TokenBucket.time_until_available
      { capacity := 5, tokens := 1, refill_rate := 2, last_update := 0 } 3 = .ok 1 ∧
    TokenBucket.time_until_available
      { capacity := 5, tokens := 1, refill_rate := 0, last_update := 0 } 3 =
      .error .zeroDivisionError := by
  constructor
  · have h := (C4_time_until_available
      { capacity := 5, tokens := 1, refill_rate := 2, last_update := 0 } 3).1
      (by norm_num)
    rw [h, if_neg (by norm_num)]
    norm_num
  · exact (C4_time_until_available
      { capacity := 5, tokens := 1, refill_rate := 0, last_update := 0 } 3).2
      rfl (by norm_num)

/-- C8 witness: concrete instances of both conjuncts. -/
theorem C8_witness :
    map_http_status_to_result_type 418 = classifySpecTable 418 ∧
    Option.map APIResult.result_type
      (runResult (makeRequestWithCache
        { stats := {}, rate_limiter := bucketFull, cache_manager := none }
        ("/x") [] 0 .timeout)) = some .TRANSIENT_ERROR := by
  refine ⟨C8_classifier_table.1 418, ?_⟩
  exact C8_classifier_table.2
    { stats := {}, rate_limiter := bucketFull, cache_manager := none }
    ("/x") [] 0 .timeout rfl (by decide) (Or.inl rfl)

/-- C3 (code bug): `CacheManager.set` of a new key with the cache at
capacity crashes with `KeyError` instead of evicting the least-recently-used
cached entry, whenever the oldest recorded access time belongs to a key
that was only probed (recorded by a `get` miss) but never stored. Here the
cache is at `max_size = 1` holding key `"a"` (accessed at t = 2), while the
access-time dict also holds the phantom key `"p"` (accessed at t = 1):
`min` picks `"p"` and `del self._cache["p"]` raises. -/
theorem C3_set_keyError :
    CacheManager.set
      { max_size := 1, cache := [(("a"), entry0)],
        access_times := [(("p"), 1), (("a"), 2)] }
      ("b") entry0 3 = .error .keyError := by decide

/-- C5 counterexample: a concrete entry aged 1000 ≥ 900 = `max_age +
stale_while_revalidate` is read and is still in the store afterwards,
refuting "the entry is discarded on that read". -/
theorem C5_counterexample :
    entry0.is_stale_but_usable 1000 = false ∧
    alistFind key0 ((cmOne.get ("/x") [] 1000).2.2).cache = some entry0 := by
  exact ⟨by decide, by decide⟩

/-- C5 witness: the amended theorem applied at the concrete fixture. -/
theorem C5_witness :
    ((cmOne.get ("/x") [] 1000).2.2).cache = [(key0, entry0)] ∧
    entry0.is_stale_but_usable 1000 = false := by
  constructor
  · exact (C5_get_never_discards cmOne ("/x") [] 1000).1
  · exact (C5_get_never_discards cmOne ("/x") [] 1000).2 entry0 (by norm_num [entry0])

end ConcreteEvaluations

/-! ### Key order lemmas for C9 (totality, transitivity, antisymmetry of the
code-point order, and sort invariance under permutation). -/

theorem lexLe_total : ∀ a b : List Char, lexLe a b = true ∨ lexLe b a = true
  | [], _ => Or.inl rfl
  | _ :: _, [] => Or.inr rfl
  | a :: as, b :: bs => by
      rcases Nat.lt_trichotomy a.toNat b.toNat with h | h | h
      · exact Or.inl (by simp [lexLe, h])
      · have h1 : ¬ a.toNat < b.toNat := by omega
        have h2 : ¬ b.toNat < a.toNat := by omega
        rcases lexLe_total as bs with ih | ih
        · exact Or.inl (by simp [lexLe, h1, h2, ih])
        · exact Or.inr (by simp [lexLe, h1, h2, ih])
      · exact Or.inr (by simp [lexLe, h])

theorem lexLe_trans : ∀ a b c : List Char,
    lexLe a b = true → lexLe b c = true → lexLe a c = true
  | [], _, _, _, _ => rfl
  | _ :: _, [], _, h1, _ => by simp [lexLe] at h1
  | _ :: _, _ :: _, [], _, h2 => by simp [lexLe] at h2
  | a :: as, b :: bs, c :: cs, h1, h2 => by
      rcases Nat.lt_trichotomy a.toNat b.toNat with hab | hab | hab
      · rcases Nat.lt_trichotomy b.toNat c.toNat with hbc | hbc | hbc
        · simp [lexLe, show a.toNat < c.toNat by omega]
        · simp [lexLe, show a.toNat < c.toNat by omega]
        · exfalso
          simp [lexLe, show ¬ b.toNat < c.toNat by omega, hbc] at h2
      · rcases Nat.lt_trichotomy b.toNat c.toNat with hbc | hbc | hbc
        · simp [lexLe, show a.toNat < c.toNat by omega]
        · have h1' : lexLe as bs = true := by
            simpa [lexLe, show ¬ a.toNat < b.toNat by omega,
              show ¬ b.toNat < a.toNat by omega] using h1
          have h2' : lexLe bs cs = true := by
            simpa [lexLe, show ¬ b.toNat < c.toNat by omega,
              show ¬ c.toNat < b.toNat by omega] using h2
          simp [lexLe, show ¬ a.toNat < c.toNat by omega,
            show ¬ c.toNat < a.toNat by omega, lexLe_trans as bs cs h1' h2']
        · exfalso
          simp [lexLe, show ¬ b.toNat < c.toNat by omega, hbc] at h2
      · exfalso
        simp [lexLe, show ¬ a.toNat < b.toNat by omega, hab] at h1

theorem lexLe_antisymm : ∀ a b : List Char,
    lexLe a b = true → lexLe b a = true → a = b
  | [], [], _, _ => rfl
  | [], _ :: _, _, h2 => by simp [lexLe] at h2
  | _ :: _, [], h1, _ => by simp [lexLe] at h1
  | a :: as, b :: bs, h1, h2 => by
      rcases Nat.lt_trichotomy a.toNat b.toNat with h | h | h
      · exfalso
        simp [lexLe, show ¬ b.toNat < a.toNat by omega, h] at h2
      · have hab : a = b := Char.ext (UInt32.ext h)
        have h1' : lexLe as bs = true := by
          simpa [lexLe, show ¬ a.toNat < b.toNat by omega,
            show ¬ b.toNat < a.toNat by omega] using h1
        have h2' : lexLe bs as = true := by
          simpa [lexLe, show ¬ a.toNat < b.toNat by omega,
            show ¬ b.toNat < a.toNat by omega] using h2
        rw [hab, lexLe_antisymm as bs h1' h2']
      · exfalso
        simp [lexLe, show ¬ a.toNat < b.toNat by omega, h] at h1

/-- Sorting by key is invariant under permutation of an association list
with distinct keys. -/
theorem insertionSort_key_perm_eq (l₁ l₂ : List (String × JValue))
    (hnd : (l₁.map Prod.fst).Nodup) (hp : l₁.Perm l₂) :
    List.insertionSort keyLe l₁ = List.insertionSort keyLe l₂ := by
  haveI : IsTotal (String × JValue) keyLe :=
    ⟨fun p q => lexLe_total p.1.data q.1.data⟩
  haveI : IsTrans (String × JValue) keyLe :=
    ⟨fun p q r => lexLe_trans p.1.data q.1.data r.1.data⟩
  have hs₁ := List.sorted_insertionSort keyLe l₁
  have hs₂ := List.sorted_insertionSort keyLe l₂
  have hperm : (List.insertionSort keyLe l₁).Perm (List.insertionSort keyLe l₂) :=
    (List.perm_insertionSort keyLe l₁).trans
      (hp.trans (List.perm_insertionSort keyLe l₂).symm)
  have hnd₁ : ((List.insertionSort keyLe l₁).map Prod.fst).Nodup :=
    (((List.perm_insertionSort keyLe l₁).map Prod.fst).nodup_iff).mpr hnd
  have hnd₂ : ((List.insertionSort keyLe l₂).map Prod.fst).Nodup :=
    ((hperm.map Prod.fst).nodup_iff).mp hnd₁
  have hpw₁ : (List.insertionSort keyLe l₁).Pairwise
      fun p q => keyLe p q ∧ p.1 ≠ q.1 :=
    List.Pairwise.and hs₁ (List.pairwise_map.mp hnd₁)
  have hpw₂ : (List.insertionSort keyLe l₂).Pairwise
      fun p q => keyLe p q ∧ p.1 ≠ q.1 :=
    List.Pairwise.and hs₂ (List.pairwise_map.mp hnd₂)
  haveI : IsAntisymm (String × JValue) (fun p q => keyLe p q ∧ p.1 ≠ q.1) := by
    constructor
    rintro ⟨ka, va⟩ ⟨kb, vb⟩ ⟨hle₁, hne₁⟩ ⟨hle₂, hne₂⟩
    exfalso
    apply hne₁
    have hdata : ka.data = kb.data := lexLe_antisymm _ _ hle₁ hle₂
    cases ka
    cases kb
    exact congrArg String.mk hdata
  exact List.eq_of_perm_of_sorted hperm hpw₁ hpw₂

/-- C9: the cache key is deterministic — permuting the parameter pairs of a
dict (distinct keys) yields the same key — and distinct parameter values
yield distinct keys at the concrete test inputs of the spec. -/
theorem C9_key_determinism :
    (∀ (ep : String) (p₁ p₂ : List (String × JValue)),
      (p₁.map Prod.fst).Nodup → p₁.Perm p₂ →
      CacheManager.generate_key ep p₁ = CacheManager.generate_key ep p₂) ∧
    CacheManager.generate_key ("/x") [(("a"), .i 1)] ≠
      CacheManager.generate_key ("/x") [(("a"), .i 2)] := by
  constructor
  · intro ep p₁ p₂ hnd hp
    have hempty : p₁.isEmpty = p₂.isEmpty := by
      rcases p₁ with _ | ⟨x, xs⟩
      · rw [hp.symm.eq_nil]
      · rcases hq : p₂ with _ | ⟨y, ys⟩
        · rw [hq] at hp
          exact absurd hp.eq_nil (by simp)
        · rfl
    have hsort := insertionSort_key_perm_eq p₁ p₂ hnd hp
    unfold CacheManager.generate_key jsonDumpsSorted
    rw [hsort, hempty]
  · decide

/-- C9 witness: the determinism conjunct applied at the spec's concrete
test inputs, plus the concrete inequality. -/
theorem C9_witness :
    CacheManager.generate_key ("/j") [(("a"), .i 1), (("b"), .i 2)] =
      CacheManager.generate_key ("/j") [(("b"), .i 2), (("a"), .i 1)] ∧
    CacheManager.generate_key ("/x") [(("a"), .i 1)] ≠
      CacheManager.generate_key ("/x") [(("a"), .i 2)] :=
  ⟨C9_key_determinism.1 ("/j") _ _ (by decide) (by decide), C9_key_determinism.2⟩

section ConcreteEvaluationsTwo

attribute [local semireducible] Rat.mul Rat.add Rat.sub Rat.div Rat.inv Rat.neg

/-- C1 counterexample: with the depleted bucket (`refill_rate = 1/2`,
`tokens = 0`, both exact binary floats) the wait is exactly 2 seconds and
the code returns `retry_after = int(2) + 1 = 3`, while the ceiling of
`time_until_available(1)` is 2 — refuting `retryAfterSeconds =
ceil(timeUntilAvailable(1))`. -/
theorem C1_counterexample :
    Option.map APIResult.retry_after
      (runResult (makeRequestWithCache stDepleted ("/x") [] 5 .timeout)) =
      some (some 3) ∧
    (stDepleted.rate_limiter.consume 5 1).2.time_until_available 1 = .ok 2 ∧
    (⌈(2 : ℚ)⌉ : ℤ) = 2 ∧ (3 : ℤ) ≠ 2 := by
  refine ⟨by decide, by decide, ?_, by decide⟩
  norm_num

/-- C1 witness: the amended theorem applied at the depleted fixture. -/
theorem C1_witness :
    makeRequestWithCache stDepleted ("/x") [] 5 .timeout =
      .ok ({ result_type := .RATE_LIMITED,
             retry_after := some (Rat.floor
               ((1 - bucketDepleted.tokens) / bucketDepleted.refill_rate) + 1) },
           bumpRateLimitHits { touchState stDepleted { max_size := 10 }
               (CacheManager.generate_key ("/x") []) 5 with
             rate_limiter := bucketDepleted }) ∧
    bucketDepleted.time_until_available 1 =
      .ok ((1 - bucketDepleted.tokens) / bucketDepleted.refill_rate) := by
  have h := C1_rate_limited_retry stDepleted { max_size := 10 } ("/x") [] 5
    .timeout bucketDepleted rfl (fun e h => nomatch h) (fun e h => nomatch h)
    (by decide) (by decide)
  exact ⟨h.1, h.2.1⟩

/-- C2 counterexample: a 200 response with an unparsable body returns
`TransientError` but leaves the `errors` counter at 0 (the claim demands an
increment to 1). -/
theorem C2_counterexample :
    Option.map APIResult.result_type
      (runResult (makeRequestWithCache stPlain ("/x") [] 5
        (.response 200 none none none))) = some .TRANSIENT_ERROR ∧
    Option.map Stats.errors (Option.map ClientState.stats
      (runState (makeRequestWithCache stPlain ("/x") [] 5
        (.response 200 none none none)))) = some 0 ∧
    stPlain.stats.errors = 0 := by
  exact ⟨by decide, by decide, rfl⟩

/-- C2 witness: the amended theorem applied at the empty-cache fixture. -/
theorem C2_witness :
    Option.map Stats.errors (Option.map ClientState.stats
      (runState (makeRequestWithCache stPlain ("/x") [] 5
        (.response 200 none none none)))) = some stPlain.stats.errors ∧
    Option.map cacheListOf
      (runState (makeRequestWithCache stPlain ("/x") [] 5
        (.response 200 none none none))) = some (cacheListOf stPlain) := by
  have h := C2_badJson_transient stPlain { max_size := 10 } ("/x") [] 5 200
    none none ⟨10, 9, 1, 5⟩ rfl (fun e h => nomatch h) (by decide) (by omega)
  exact ⟨h.2.1, h.2.2⟩

/-- C6 counterexample: HTTP 304 is classified `TransientError` (so it is a
"status classified RateLimited/UpstreamError/TransientError" in the
claim's sense), yet with an entry aged past `max_age +
stale_while_revalidate` the code still returns the old payload as
`Success(from_cache = true)` — refuting "the stale payload is never
returned" for entries beyond the window. -/
theorem C6_counterexample :
    map_http_status_to_result_type 304 = .TRANSIENT_ERROR ∧
    entryTagged.is_stale_but_usable 1000 = false ∧
    Option.map resultView
      (runResult (makeRequestWithCache stTagged ("/x") [] 1000
        (.response 304 none (some ("v1")) none))) =
      some (.SUCCESS, true, some ("d0")) := by
  exact ⟨rfl, by decide, by decide⟩

/-- C6 witness: both conjuncts of the amended theorem applied at concrete
inputs — a 500 during the stale window serves the old payload, and a 503
past the window yields the classified `UpstreamError`. -/
theorem C6_witness :
    Option.map resultView
      (runResult (makeRequestWithCache stTagged ("/x") [] 400
        (.response 500 none none none))) =
      some (.SUCCESS, true, some ("d0")) ∧
    Option.map resultView
      (runResult (makeRequestWithCache stTagged ("/x") [] 1000
        (.response 503 none none none))) =
      some (.UPSTREAM_ERROR, false, none) := by
  constructor
  · exact (C6_stale_window stTagged cmTagged entryTagged ("/x") [] 400
      (.response 500 none none none) rfl (by decide) (by decide)).1
      ⟨by decide, by decide⟩ (Or.inr ⟨by decide, Or.inr (Or.inl (by decide))⟩)
  · have h := (C6_stale_window stTagged cmTagged entryTagged ("/x") [] 1000
      (.response 503 none none none) rfl (by decide) (by decide)).2
      (by decide) (by decide)
      (Or.inr ⟨by decide, Or.inr (Or.inl (by decide))⟩)
      (fun hh => absurd hh (by decide : ¬ (503 = 304)))
    rw [h]
    have hpe : properError stTagged 1000 (.response 503 none none none) =
        .UPSTREAM_ERROR := by decide
    rw [hpe]

/-- C7 witness: the theorem applied at a fresh entry (age 100 < 300). -/
theorem C7_witness :
    makeRequestWithCache stOne ("/x") [] 100 .timeout =
      .ok ({ result_type := .SUCCESS, data := some entry0.data,
             from_cache := true, cached_at := some entry0.fetched_at },
           bumpCacheHits (touchState stOne cmOne
             (CacheManager.generate_key ("/x") []) 100)) ∧
    Option.map ClientState.rate_limiter
      (runState (makeRequestWithCache stOne ("/x") [] 100 .timeout)) =
      some stOne.rate_limiter := by
  have h := C7_fresh_cache_hit stOne cmOne entry0 ("/x") [] 100 .timeout rfl
    (by decide) (by decide)
  exact ⟨h.1, h.2.1⟩

/-- C10 witness: the theorem applied at a state holding a usable-stale
entry (age 400, inside the fallback window): the result is still
`TransientError` with `errors` bumped, not the stale `Success`. -/
theorem C10_witness :
    entry0.is_stale_but_usable 400 = true ∧
    Option.map resultView
      (runResult (makeRequestWithCache stOne ("/x") [] 400
        .otherRequestException)) = some (.TRANSIENT_ERROR, false, none) ∧
    Option.map Stats.errors (Option.map ClientState.stats
      (runState (makeRequestWithCache stOne ("/x") [] 400
        .otherRequestException))) = some (stOne.stats.errors + 1) := by
  have h := C10_other_exception stOne cmOne ("/x") [] 400 ⟨10, 9, 1, 400⟩ rfl
    (fun e h => by
      have h2 : some entry0 = some e :=
        (by decide : alistFind (CacheManager.generate_key ("/x") [])
          cmOne.cache = some entry0).symm.trans h
      injection h2 with h3
      rw [← h3]
      decide)
    (by decide)
  refine ⟨by decide, ?_, h.2.1⟩
  rw [h.1]
  rfl

end ConcreteEvaluationsTwo

end BetterBahn
